import Mathlib

/-!
# Verification of the secret-santa-manager core (`server/routes.ts`, `shared/schema.ts`)

Shallow embedding of the repository's matching engine, reminder scheduler,
notification dispatcher, gift-confirmation handler and onboarding state
machine, together with proofs or refutations of the specification claims.

Modelling conventions:
* `Math.random()` draws are modelled by an ambient stream `R : Nat → Nat → Nat`
  (`R k` is the stream feeding the `k`-th call of `shuffle`; the draw at
  Fisher-Yates index `i+1` is taken modulo `i+2`, matching
  `Math.floor(Math.random() * (i + 1))` for loop index `i`).
* Timestamps are integers (milliseconds since epoch, as in JS `Date`).
* The external IANA timezone service (`date-fns-tz`) is modelled by a database
  `Tzdb : String → Option Int` mapping a zone name to its fixed UTC offset in
  milliseconds (`none` = unknown zone, i.e. `toZonedTime` throws).  The host
  process runs in UTC, so `toZonedTime t z = t + off` and `fromZonedTime` is
  its inverse.
* Fallible outbound Slack sends are modelled by an oracle `Nat → Bool`
  consumed one index per attempted `chat.postMessage` call.
* Outbound message *texts* are presentation only; they are represented by
  tagged constructors naming the message site in the source.
-/

namespace SecretSanta

/-! ## Matching engine (`generateMatching`, routes.ts lines 69-137) -/

/-- A row of the `exclusions` table: "participantId must not give to
excludedParticipantId". -/
structure ExclusionPair where
  participantId : String
  excludedParticipantId : String
deriving DecidableEq, Repr

/-- One element of `generateMatching`'s result array. -/
structure MatchPair where
  giverId : String
  receiverId : String
deriving DecidableEq, Repr

/-- `[result[i], result[j]] = [result[j], result[i]]`: exchange the entries at
positions `i` and `j` (identity when either index is out of bounds; the source
only ever swaps in bounds). -/
def listSwap (l : List α) (i j : Nat) : List α :=
  match l.get? i, l.get? j with
  | some a, some b => (l.set i b).set j a
  | _, _ => l

/-- The Fisher-Yates loop of `shuffle`: indices `i+1` down to `1`, each time
swapping position `i+1` with position `r (i+1) % (i+2)`
(= `Math.floor(Math.random() * (i + 2))`). -/
def shuffleAux (r : Nat → Nat) : Nat → List α → List α
  | 0, l => l
  | i + 1, l => shuffleAux r i (listSwap l (i + 1) (r (i + 1) % (i + 2)))

/-- `shuffle` from routes.ts: Fisher-Yates over a copy of the array, driven by
the random draws `r`. -/
def shuffle (r : Nat → Nat) (l : List α) : List α :=
  shuffleAux r (l.length - 1) l

/-- The key `` `${pair.participantId}-${pair.excludedParticipantId}` `` stored
in `exclusionSet`. -/
def exclusionKey (g r : String) : String := g ++ "-" ++ r

/-- `exclusionSet`: the keys of all exclusion pairs (membership in a JS `Set`
is membership in this list). -/
def buildExclusionKeys (exclusionPairs : List ExclusionPair) : List String :=
  exclusionPairs.map fun pair => exclusionKey pair.participantId pair.excludedParticipantId

/-- `isValidAssignment` from routes.ts: not a self-pair and not an excluded
pair. -/
def isValidAssignment (exclusionSet : List String) (giverId receiverId : String) : Bool :=
  !(giverId == receiverId) && !(exclusionSet.contains (exclusionKey giverId receiverId))

/-- The `for (const receiver of shuffledReceivers)` loop body of
`findAssignment`: try each candidate in order, recursing through `f`
(the search over the remaining givers); thread the shuffle-call counter `k`. -/
def tryCands (exclusionSet : List String)
    (f : List String → List MatchPair → Nat → Option (List MatchPair) × Nat)
    (giver : String) (receivers : List String) (current : List MatchPair) :
    List String → Nat → Option (List MatchPair) × Nat
  | [], k => (none, k)
  | c :: cs, k =>
    if isValidAssignment exclusionSet giver c then
      match f (receivers.filter fun r => r != c) (current ++ [⟨giver, c⟩]) k with
      | (some res, k') => (some res, k')
      | (none, k') => tryCands exclusionSet f giver receivers current cs k'
    else
      tryCands exclusionSet f giver receivers current cs k

/-- `findAssignment` from routes.ts: backtracking over the giver list, shuffling
the remaining receivers at each node. -/
def findAssignment (R : Nat → Nat → Nat) (exclusionSet : List String) :
    List String → List String → List MatchPair → Nat → Option (List MatchPair) × Nat
  | [], _, current, k => (some current, k)
  | giver :: rest, receivers, current, k =>
    tryCands exclusionSet (findAssignment R exclusionSet rest) giver receivers current
      (shuffle (R k) receivers) (k + 1)

/-- The `for (let attempt = 0; attempt < 100; attempt++)` retry loop: each
attempt freshly shuffles givers and receivers. -/
def attemptLoop (R : Nat → Nat → Nat) (exclusionSet : List String) (participantIds : List String) :
    Nat → Nat → Option (List MatchPair)
  | 0, _ => none
  | fuel + 1, k =>
    let shuffledGivers := shuffle (R k) participantIds
    let shuffledReceivers := shuffle (R (k + 1)) participantIds
    match findAssignment R exclusionSet shuffledGivers shuffledReceivers [] (k + 2) with
    | (some res, _) => some res
    | (none, k') => attemptLoop R exclusionSet participantIds fuel k'

/-- `generateMatching` from routes.ts.  Returns `none` both for `n < 2` and
when all 100 attempts fail. -/
def generateMatching (R : Nat → Nat → Nat) (participantIds : List String)
    (exclusionPairs : List ExclusionPair) : Option (List MatchPair) :=
  if participantIds.length < 2 then none
  else attemptLoop R (buildExclusionKeys exclusionPairs) participantIds 100 0

/-- Outcome of `POST /api/events/match` (routes.ts lines 700-747): the
"too few participants" 400, the "could not find a valid matching" 400, or
success. -/
inductive MatchResponse
  | tooFewParticipants
  | infeasible
  | matched (m : List MatchPair)
deriving DecidableEq, Repr

/-- The matching portion of the `POST /api/events/match` handler: reject fewer
than 3 participants before running the engine; surface a null engine result as
the infeasibility error. -/
def matchRoute (R : Nat → Nat → Nat) (participantIds : List String)
    (exclusionPairs : List ExclusionPair) : MatchResponse :=
  if participantIds.length < 3 then .tooFewParticipants
  else
    match generateMatching R participantIds exclusionPairs with
    | none => .infeasible
    | some m => .matched m

/-! ## Permutation facts about the Fisher-Yates shuffle -/

/-- Writing `b` into position `m` and moving the displaced element `l[m]` to
the front is a permutation of consing `a` onto `l`. -/
theorem cons_set_perm (l : List α) (m : Nat) (a b : α) (h : l.get? m = some b) :
    List.Perm (b :: l.set m a) (a :: l) := by
  induction l generalizing m with
  | nil => simp at h
  | cons c t ih =>
    cases m with
    | zero =>
      simp only [List.get?] at h
      cases h
      simpa using List.Perm.swap a b t
    | succ k =>
      simp only [List.get?] at h
      have ihk := ih k h
      have h1 : b :: (c :: t).set (k + 1) a = b :: c :: t.set k a := by simp [List.set]
      rw [h1]
      exact ((List.Perm.swap c b _).trans ((ihk.cons c).trans (List.Perm.swap a c t)))

/-- A `listSwap` is a permutation. -/
theorem listSwap_perm (l : List α) (i j : Nat) : List.Perm (listSwap l i j) l := by
  induction l generalizing i j with
  | nil => simp [listSwap]
  | cons c t ih =>
    cases i with
    | zero =>
      cases j with
      | zero => simp [listSwap, List.get?, List.set]
      | succ m =>
        unfold listSwap
        simp only [List.get?]
        cases hm : t.get? m with
        | none => exact List.Perm.refl _
        | some b =>
          simp only [List.set]
          exact cons_set_perm t m c b hm
    | succ n =>
      cases j with
      | zero =>
        unfold listSwap
        simp only [List.get?]
        cases hn : t.get? n with
        | none => exact List.Perm.refl _
        | some a =>
          simp only [List.set]
          exact cons_set_perm t n c a hn
      | succ m =>
        unfold listSwap
        simp only [List.get?]
        cases hn : t.get? n with
        | none => exact List.Perm.refl _
        | some a =>
          cases hm : t.get? m with
          | none => exact List.Perm.refl _
          | some b =>
            simp only [List.set]
            have := ih n m
            unfold listSwap at this
            rw [hn, hm] at this
            exact this.cons c

/-- Each pass of the Fisher-Yates loop is a permutation. -/
theorem shuffleAux_perm (r : Nat → Nat) (n : Nat) (l : List α) :
    List.Perm (shuffleAux r n l) l := by
  induction n generalizing l with
  | zero => simp [shuffleAux]
  | succ i ih =>
    exact (ih _).trans (listSwap_perm l (i + 1) (r (i + 1) % (i + 2)))

/-- `shuffle` returns a permutation of its input. -/
theorem shuffle_perm (r : Nat → Nat) (l : List α) : List.Perm (shuffle r l) l :=
  shuffleAux_perm r (l.length - 1) l

theorem shuffle_length (r : Nat → Nat) (l : List α) : (shuffle r l).length = l.length :=
  (shuffle_perm r l).length_eq

theorem mem_of_mem_shuffle {r : Nat → Nat} {l : List α} {a : α} (h : a ∈ shuffle r l) :
    a ∈ l :=
  (shuffle_perm r l).mem_iff.mp h

/-! ## Soundness of the backtracking search -/

/-- Invariant of the pairs appended by `findAssignment givers receivers`:
their givers are exactly `givers` in order, their receivers are pairwise
distinct elements of `receivers`, and every pair passes `isValidAssignment`. -/
def ValidExtra (exclusionSet : List String) (givers receivers : List String)
    (extra : List MatchPair) : Prop :=
  extra.map MatchPair.giverId = givers
    ∧ (extra.map MatchPair.receiverId).Nodup
    ∧ ∀ p ∈ extra, p.receiverId ∈ receivers
        ∧ isValidAssignment exclusionSet p.giverId p.receiverId = true

theorem tryCands_sound (exclusionSet : List String)
    (f : List String → List MatchPair → Nat → Option (List MatchPair) × Nat)
    (rest : List String)
    (hf : ∀ recv cur k res k', f recv cur k = (some res, k') →
      ∃ extra, res = cur ++ extra ∧ ValidExtra exclusionSet rest recv extra)
    (giver : String) (receivers : List String) (current : List MatchPair) :
    ∀ cands k res k', (∀ c ∈ cands, c ∈ receivers) →
      tryCands exclusionSet f giver receivers current cands k = (some res, k') →
      ∃ extra, res = current ++ extra ∧ ValidExtra exclusionSet (giver :: rest) receivers extra := by
  intro cands
  induction cands with
  | nil => intro k res k' _ h; simp [tryCands] at h
  | cons c cs ih =>
    intro k res k' hmem h
    unfold tryCands at h
    by_cases hv : isValidAssignment exclusionSet giver c = true
    · rw [if_pos hv] at h
      cases hcall : f (receivers.filter fun r => r != c) (current ++ [⟨giver, c⟩]) k with
      | mk o k0 =>
        cases o with
        | some res0 =>
          rw [hcall] at h
          cases h
          obtain ⟨extra, hres, hg, hnd, hmems⟩ := hf _ _ _ _ _ hcall
          refine ⟨⟨giver, c⟩ :: extra, by simpa using hres, ?_, ?_, ?_⟩
          · simpa using hg
          · simp only [List.map_cons, List.nodup_cons]
            constructor
            · intro hc
              obtain ⟨q, hq, hqc⟩ := List.mem_map.mp hc
              have := (hmems q hq).1
              rw [hqc] at this
              have := (List.mem_filter.mp this).2
              simp at this
            · exact hnd
          · intro p hp
            rcases List.mem_cons.mp hp with heq | hp'
            · subst heq
              exact ⟨hmem c (by simp), hv⟩
            · have h1 := (hmems p hp').1
              exact ⟨(List.mem_filter.mp h1).1, (hmems p hp').2⟩
        | none =>
          rw [hcall] at h
          exact ih k0 res k' (fun x hx => hmem x (by simp [hx])) h
    · rw [if_neg hv] at h
      exact ih k res k' (fun x hx => hmem x (by simp [hx])) h

theorem findAssignment_sound (R : Nat → Nat → Nat) (exclusionSet : List String) :
    ∀ givers receivers current k res k',
      findAssignment R exclusionSet givers receivers current k = (some res, k') →
      ∃ extra, res = current ++ extra ∧ ValidExtra exclusionSet givers receivers extra := by
  intro givers
  induction givers with
  | nil =>
    intro receivers current k res k' h
    unfold findAssignment at h
    cases h
    exact ⟨[], by simp, by simp [ValidExtra]⟩
  | cons giver rest ih =>
    intro receivers current k res k' h
    unfold findAssignment at h
    exact tryCands_sound exclusionSet _ rest (fun recv cur k res k' => ih recv cur k res k')
      giver receivers current _ _ res k' (fun c hc => mem_of_mem_shuffle hc) h

theorem attemptLoop_sound (R : Nat → Nat → Nat) (exclusionSet : List String)
    (participantIds : List String) :
    ∀ fuel k res, attemptLoop R exclusionSet participantIds fuel k = some res →
      ∃ sg sr, List.Perm sg participantIds ∧ List.Perm sr participantIds ∧
        ValidExtra exclusionSet sg sr res := by
  intro fuel
  induction fuel with
  | zero => intro k res h; simp [attemptLoop] at h
  | succ n ih =>
    intro k res h
    unfold attemptLoop at h
    cases hcall : findAssignment R exclusionSet (shuffle (R k) participantIds)
        (shuffle (R (k + 1)) participantIds) [] (k + 2) with
    | mk o k0 =>
      cases o with
      | some res0 =>
        simp only [hcall, Option.some.injEq] at h
        subst h
        obtain ⟨extra, hres, hvalid⟩ := findAssignment_sound R exclusionSet _ _ _ _ _ _ hcall
        simp only [List.nil_append] at hres
        subst hres
        exact ⟨_, _, shuffle_perm _ _, shuffle_perm _ _, hvalid⟩
      | none =>
        simp only [hcall] at h
        exact ih k0 res h

/-- A list of pairwise-distinct elements of `ids` that is at least as long as
`ids` is a permutation of `ids`. -/
theorem perm_of_nodup_sub_length (L ids : List String) (hnd : L.Nodup)
    (hsub : ∀ x ∈ L, x ∈ ids) (hlen : ids.length ≤ L.length) : List.Perm L ids :=
  (List.subperm_of_subset hnd hsub).perm_of_length_le hlen

/-- What the specification calls a valid assignment set: a bijection on the
participant ids (givers and receivers are each a permutation of the ids), no
fixed points, and no pair present in the exclusion set. -/
def validMatching (participantIds : List String) (exclusionPairs : List ExclusionPair)
    (m : List MatchPair) : Prop :=
  List.Perm (m.map MatchPair.giverId) participantIds
    ∧ List.Perm (m.map MatchPair.receiverId) participantIds
    ∧ ∀ p ∈ m, p.giverId ≠ p.receiverId
        ∧ ∀ e ∈ exclusionPairs,
            ¬(e.participantId = p.giverId ∧ e.excludedParticipantId = p.receiverId)

theorem generateMatching_sound {R : Nat → Nat → Nat} {participantIds : List String}
    {exclusionPairs : List ExclusionPair} {m : List MatchPair}
    (h : generateMatching R participantIds exclusionPairs = some m) :
    validMatching participantIds exclusionPairs m := by
  unfold generateMatching at h
  split at h
  · exact absurd h (by simp)
  · obtain ⟨sg, sr, hsg, hsr, hg, hnd, hmems⟩ := attemptLoop_sound R _ participantIds _ _ _ h
    have hgperm : List.Perm (m.map MatchPair.giverId) participantIds := hg ▸ hsg
    have hlen : m.length = participantIds.length := by
      have := hgperm.length_eq
      simpa using this
    have hrperm : List.Perm (m.map MatchPair.receiverId) participantIds := by
      refine perm_of_nodup_sub_length _ _ hnd ?_ (by simp [hlen])
      intro x hx
      obtain ⟨p, hp, hpx⟩ := List.mem_map.mp hx
      exact hsr.mem_iff.mp (hpx ▸ (hmems p hp).1)
    refine ⟨hgperm, hrperm, ?_⟩
    intro p hp
    have hv := (hmems p hp).2
    unfold isValidAssignment at hv
    simp only [Bool.and_eq_true, Bool.not_eq_true'] at hv
    constructor
    · intro heq
      have := hv.1
      rw [heq] at this
      simp at this
    · intro e he ⟨he1, he2⟩
      have hkey : exclusionKey p.giverId p.receiverId ∈ buildExclusionKeys exclusionPairs := by
        unfold buildExclusionKeys
        exact List.mem_map.mpr ⟨e, he, by rw [he1, he2]⟩
      have := hv.2
      simp only [List.contains, List.elem_eq_mem, decide_eq_false_iff_not] at this
      exact this hkey

/-! ## Claims C1, C2, C8 -/

/-- C1: for every list of participant IDs and every set of ordered exclusion
pairs, whenever `generateMatching` returns a non-null result, the result is a
bijection on the participant IDs (every participant appears exactly once as a
giver and exactly once as a receiver), has no fixed points
(`giverId ≠ receiverId` in every pair), and contains no
`(giverId, receiverId)` pair present in the exclusion set. -/
theorem generateMatching_valid (R : Nat → Nat → Nat) (participantIds : List String)
    (exclusionPairs : List ExclusionPair) (m : List MatchPair)
    (h : generateMatching R participantIds exclusionPairs = some m) :
    List.Perm (m.map MatchPair.giverId) participantIds
      ∧ List.Perm (m.map MatchPair.receiverId) participantIds
      ∧ ∀ p ∈ m, p.giverId ≠ p.receiverId
          ∧ ∀ e ∈ exclusionPairs,
              ¬(e.participantId = p.giverId ∧ e.excludedParticipantId = p.receiverId) :=
  generateMatching_sound h

/-- Witness for C1 at a concrete input: three participants with the single
exclusion (A, B). -/
theorem generateMatching_valid_witness :
    List.Perm (([⟨"B", "A"⟩, ⟨"C", "B"⟩, ⟨"A", "C"⟩] : List MatchPair).map MatchPair.giverId)
        ["A", "B", "C"]
      ∧ List.Perm (([⟨"B", "A"⟩, ⟨"C", "B"⟩, ⟨"A", "C"⟩] : List MatchPair).map MatchPair.receiverId)
          ["A", "B", "C"]
      ∧ ∀ p ∈ ([⟨"B", "A"⟩, ⟨"C", "B"⟩, ⟨"A", "C"⟩] : List MatchPair),
          p.giverId ≠ p.receiverId
            ∧ ∀ e ∈ ([⟨"A", "B"⟩] : List ExclusionPair),
                ¬(e.participantId = p.giverId ∧ e.excludedParticipantId = p.receiverId) :=
  generateMatching_valid (fun _ _ => 0) ["A", "B", "C"] [⟨"A", "B"⟩]
    [⟨"B", "A"⟩, ⟨"C", "B"⟩, ⟨"A", "C"⟩] (by decide)

/-- C2: `generateMatching` is a total function built from a literal budget of
100 restart attempts (`attemptLoop _ _ _ 100 0`), so it always terminates; it
returns `none` whenever no valid assignment exists at all — in particular for
an input in which every participant excludes all others but themselves
(`n ≥ 2`). -/
theorem generateMatching_infeasible (R : Nat → Nat → Nat) (participantIds : List String)
    (exclusionPairs : List ExclusionPair) :
    ((∀ m, ¬validMatching participantIds exclusionPairs m) →
        generateMatching R participantIds exclusionPairs = none)
      ∧ (2 ≤ participantIds.length →
          (∀ a ∈ participantIds, ∀ b ∈ participantIds, a ≠ b →
            ∃ e ∈ exclusionPairs, e.participantId = a ∧ e.excludedParticipantId = b) →
          generateMatching R participantIds exclusionPairs = none) := by
  have main : (∀ m, ¬validMatching participantIds exclusionPairs m) →
      generateMatching R participantIds exclusionPairs = none := by
    intro hinf
    cases h : generateMatching R participantIds exclusionPairs with
    | none => rfl
    | some m => exact absurd (generateMatching_sound h) (hinf m)
  refine ⟨main, fun hn hcover => main ?_⟩
  rintro m ⟨hgperm, hrperm, hpairs⟩
  have hne : m ≠ [] := by
    intro hnil
    subst hnil
    have := hgperm.length_eq
    simp at this
    omega
  obtain ⟨p, hp⟩ := List.exists_mem_of_ne_nil m hne
  have hg : p.giverId ∈ participantIds :=
    hgperm.mem_iff.mp (List.mem_map.mpr ⟨p, hp, rfl⟩)
  have hr : p.receiverId ∈ participantIds :=
    hrperm.mem_iff.mp (List.mem_map.mpr ⟨p, hp, rfl⟩)
  obtain ⟨hne', hexcl⟩ := hpairs p hp
  obtain ⟨e, he, he1, he2⟩ := hcover p.giverId hg p.receiverId hr hne'
  exact hexcl e he ⟨he1, he2⟩

/-- Witness for C2: two participants who exclude each other in both directions
yield INFEASIBLE (a null result). -/
theorem generateMatching_infeasible_witness :
    generateMatching (fun _ _ => 0) ["A", "B"] [⟨"A", "B"⟩, ⟨"B", "A"⟩] = none :=
  (generateMatching_infeasible (fun _ _ => 0) ["A", "B"] [⟨"A", "B"⟩, ⟨"B", "A"⟩]).2
    (by decide) (by decide)

/-- C8: with fewer than 2 participant IDs the match request fails fast with the
distinct "too few participants" response (the route rejects anything below 3
before running the search), that response differs from the INFEASIBLE response,
and the engine itself returns null immediately via its `n < 2` guard. -/
theorem matchRoute_tooFew (R : Nat → Nat → Nat) (participantIds : List String)
    (exclusionPairs : List ExclusionPair) (h : participantIds.length < 2) :
    matchRoute R participantIds exclusionPairs = .tooFewParticipants
      ∧ MatchResponse.tooFewParticipants ≠ MatchResponse.infeasible
      ∧ generateMatching R participantIds exclusionPairs = none := by
  refine ⟨?_, by simp, ?_⟩
  · unfold matchRoute
    rw [if_pos (by omega)]
  · unfold generateMatching
    rw [if_pos h]

/-- Witness for C8 at one participant. -/
theorem matchRoute_tooFew_witness :
    matchRoute (fun _ _ => 0) ["A"] [] = .tooFewParticipants
      ∧ MatchResponse.tooFewParticipants ≠ MatchResponse.infeasible
      ∧ generateMatching (fun _ _ => 0) ["A"] [] = none :=
  matchRoute_tooFew (fun _ _ => 0) ["A"] [] (by decide)

/-! ## Time and timezone model (routes.ts lines 9-58) -/

/-- Milliseconds in one hour. -/
def msPerHour : Int := 3600000

/-- Milliseconds in one day. -/
def msPerDay : Int := 86400000

/-- The external timezone database: a fixed UTC offset in milliseconds for a
known zone name, `none` for an unknown zone (where `toZonedTime` throws). -/
def Tzdb := String → Option Int

/-- `DEFAULT_TIMEZONE` from routes.ts. -/
def DEFAULT_TIMEZONE : String := "Europe/Riga"

/-- `REMINDER_HOUR` from routes.ts (10:00 AM local). -/
def REMINDER_HOUR : Int := 10

/-- `timezone || DEFAULT_TIMEZONE`: `null` and the empty string are falsy in
JS, so both fall back to the default zone. -/
def orDefaultZone (timezone : Option String) : String :=
  match timezone with
  | none => DEFAULT_TIMEZONE
  | some s => if s == "" then DEFAULT_TIMEZONE else s

/-- `getNext10AMInTimezone` from routes.ts: view `fromDate` on the zone's wall
clock, snap to 10:00:00.000 of the same local day, move to the next day if
that instant is strictly before the zoned time, and convert back to UTC.  On
an unknown zone the catch block returns `addDays(fromDate, 1)`. -/
def getNext10AMInTimezone (db : Tzdb) (timezone : Option String) (fromDate : Int) : Int :=
  let tz := orDefaultZone timezone
  match db tz with
  | some off =>
    let zonedTime := fromDate + off
    let target := zonedTime - zonedTime % msPerDay + REMINDER_HOUR * msPerHour
    let target := if target < zonedTime then target + msPerDay else target
    target - off
  | none => fromDate + msPerDay

/-- `getFirstReminderDate` from routes.ts: add 7 days to the notification
instant, snap to 10:00:00.000 of that local day in the giver's zone, convert
back to UTC.  On an unknown zone the catch block returns
`addDays(notificationDate, 7)`. -/
def getFirstReminderDate (db : Tzdb) (timezone : Option String) (notificationDate : Int) : Int :=
  let tz := orDefaultZone timezone
  match db tz with
  | some off =>
    let sevenDaysLater := notificationDate + 7 * msPerDay
    let zonedTime := sevenDaysLater + off
    let target := zonedTime - zonedTime % msPerDay + REMINDER_HOUR * msPerHour
    target - off
  | none => notificationDate + 7 * msPerDay

/-! ## Assignment records and the storage update helpers -/

/-- An `assignments` row joined with the giver/receiver columns the reminder
and notification code reads (`AssignmentWithDetails`).  Presentation-only
columns are omitted. -/
structure Assignment where
  id : Nat
  notified : Bool
  notifiedAt : Option Int
  giftSent : Bool
  giftSentAt : Option Int
  lastReminderAt : Option Int
  nextReminderAt : Option Int
  receiverNotified : Bool
  giverSlackUserId : Option String
  giverTimezone : Option String
  receiverSlackUserId : Option String
deriving DecidableEq, Repr

/-- `storage.updateAssignmentNotified`: set `notified` and `notifiedAt = now`. -/
def updateAssignmentNotified (now : Int) (a : Assignment) : Assignment :=
  { a with notified := true, notifiedAt := some now }

/-- `storage.updateAssignmentGiftStatus(id, true)`: set `giftSent` and
`giftSentAt = now`. -/
def updateAssignmentGiftStatus (now : Int) (a : Assignment) : Assignment :=
  { a with giftSent := true, giftSentAt := some now }

/-- `storage.updateAssignmentReminderSent`: set `lastReminderAt = now` and the
freshly computed `nextReminderAt`. -/
def updateAssignmentReminderSent (now v : Int) (a : Assignment) : Assignment :=
  { a with lastReminderAt := some now, nextReminderAt := some v }

/-- `storage.updateAssignmentNextReminder`: set `nextReminderAt` only. -/
def updateAssignmentNextReminder (v : Int) (a : Assignment) : Assignment :=
  { a with nextReminderAt := some v }

/-- `storage.updateAssignmentReceiverNotified`: set the idempotency flag. -/
def updateAssignmentReceiverNotified (a : Assignment) : Assignment :=
  { a with receiverNotified := true }

/-! ## Reminder sweep (`sendGiftReminders`, routes.ts lines 445-533) -/

/-- What one iteration of the `sendGiftReminders` loop does with one
assignment from `getAssignmentsNeedingReminder`. -/
inductive ReminderOutcome
  | missingInfo
  | scheduled (v : Int)
  | notDue
  | sentOk (v : Int)
  | sendFailed
deriving DecidableEq, Repr

/-- The body of the `for (const assignment of assignmentsNeedingReminder)`
loop: skip rows without `notifiedAt` or a giver Slack id; on the first
encounter compute and persist `nextReminderAt` and skip; skip when not yet
due; otherwise attempt the send (`ok` is the oracle's verdict) and on success
advance `nextReminderAt` to the next local 10:00 computed from `now`. -/
def reminderStep (db : Tzdb) (now : Int) (ok : Bool) (a : Assignment) : ReminderOutcome :=
  match a.notifiedAt, a.giverSlackUserId with
  | some notifiedAt, some _ =>
    match a.nextReminderAt with
    | none =>
      let firstReminderDate := getFirstReminderDate db a.giverTimezone notifiedAt
      let v := if firstReminderDate < now
        then getNext10AMInTimezone db a.giverTimezone now
        else firstReminderDate
      .scheduled v
    | some next =>
      if now < next then .notDue
      else if ok then .sentOk (getNext10AMInTimezone db a.giverTimezone now)
      else .sendFailed
  | _, _ => .missingInfo

/-- The storage write performed for each `ReminderOutcome`. -/
def applyReminderOutcome (now : Int) (a : Assignment) : ReminderOutcome → Assignment
  | .scheduled v => updateAssignmentNextReminder v a
  | .sentOk v => updateAssignmentReminderSent now v a
  | _ => a

/-- Rows matching `getAssignmentsNeedingReminder` (`notified = true` and
`giftSent = false`). -/
def needsReminder (a : Assignment) : Bool := a.notified && !a.giftSent

/-- Running counters of a sweep: sent, failed, skipped. -/
structure SweepCounts where
  sent : Nat
  failed : Nat
  skipped : Nat
deriving DecidableEq, Repr

/-- The sweep loop over the table: rows outside the
`getAssignmentsNeedingReminder` query are untouched and uncounted; each send
attempt consumes one oracle index `k`. -/
def sweepGo (db : Tzdb) (now : Int) (oracle : Nat → Bool) :
    List Assignment → Nat → List Assignment × SweepCounts
  | [], _ => ([], ⟨0, 0, 0⟩)
  | a :: rest, k =>
    if needsReminder a then
      let o := reminderStep db now (oracle k) a
      let k' := match o with
        | .sentOk _ => k + 1
        | .sendFailed => k + 1
        | _ => k
      let (rest', c) := sweepGo db now oracle rest k'
      (applyReminderOutcome now a o :: rest',
        match o with
        | .sentOk _ => ⟨c.sent + 1, c.failed, c.skipped⟩
        | .sendFailed => ⟨c.sent, c.failed + 1, c.skipped⟩
        | _ => ⟨c.sent, c.failed, c.skipped + 1⟩)
    else
      let (rest', c) := sweepGo db now oracle rest k
      (a :: rest', c)

/-- `sendGiftReminders`: a missing Slack token aborts the sweep with zero
counts; otherwise process every row needing a reminder. -/
def sendGiftReminders (db : Tzdb) (token : Option String) (now : Int) (oracle : Nat → Bool)
    (assignments : List Assignment) : List Assignment × SweepCounts :=
  match token with
  | none => (assignments, ⟨0, 0, 0⟩)
  | some _ => sweepGo db now oracle assignments 0

/-! ## Notification dispatch (`sendAllNotifications`, routes.ts lines 544-593) -/

/-- `sendAllNotifications` over the event's assignments: rows already
`notified` are skipped without a send attempt; otherwise one oracle index is
consumed per `sendSlackNotification` call, a success marks the row notified
with `notifiedAt = now`, and a failure leaves the row untouched and only bumps
the failure count.  Returns (rows, sent, failed). -/
def sendAllNotifications (oracle : Nat → Bool) (now : Int) :
    List Assignment → Nat → List Assignment × Nat × Nat
  | [], _ => ([], 0, 0)
  | a :: rest, k =>
    if a.notified then
      let (rest', s, f) := sendAllNotifications oracle now rest k
      (a :: rest', s, f)
    else if oracle k then
      let (rest', s, f) := sendAllNotifications oracle now rest (k + 1)
      (updateAssignmentNotified now a :: rest', s + 1, f)
    else
      let (rest', s, f) := sendAllNotifications oracle now rest (k + 1)
      (a :: rest', s, f + 1)

/-- Number of not-yet-notified rows in a list (the rows for which
`sendAllNotifications` attempts a send). -/
def countUnnotified (l : List Assignment) : Nat :=
  (l.filter fun a => !a.notified).length

theorem countUnnotified_cons_notified {a : Assignment} (l : List Assignment)
    (h : a.notified = true) : countUnnotified (a :: l) = countUnnotified l := by
  unfold countUnnotified
  simp [List.filter_cons, h]

theorem countUnnotified_cons_unnotified {a : Assignment} (l : List Assignment)
    (h : a.notified = false) : countUnnotified (a :: l) = countUnnotified l + 1 := by
  unfold countUnnotified
  simp [List.filter_cons, h]

/-- C7: during a notification sweep, rows already marked notified are skipped
untouched; an unnotified row is marked notified with `notifiedAt = now` if and
only if its send (the oracle draw for its attempt index) succeeded, and is
left completely unmodified on failure; the batch never aborts — every
unnotified row is attempted and tallied, so sent + failed equals the number of
unnotified rows. -/
theorem sendAllNotifications_spec (oracle : Nat → Bool) (now : Int) :
    ∀ (asgs : List Assignment) (k : Nat),
      (sendAllNotifications oracle now asgs k).1.length = asgs.length
        ∧ (sendAllNotifications oracle now asgs k).2.1
            + (sendAllNotifications oracle now asgs k).2.2 = countUnnotified asgs
        ∧ ∀ i a, asgs[i]? = some a →
            (a.notified = true → (sendAllNotifications oracle now asgs k).1[i]? = some a)
              ∧ (a.notified = false →
                  (sendAllNotifications oracle now asgs k).1[i]? =
                    some (if oracle (k + countUnnotified (asgs.take i))
                      then updateAssignmentNotified now a else a)) := by
  intro asgs
  induction asgs with
  | nil =>
    intro k
    refine ⟨rfl, by simp [sendAllNotifications, countUnnotified], ?_⟩
    intro i a h
    simp at h
  | cons a rest ih =>
    intro k
    by_cases hn : a.notified
    · have hstep : sendAllNotifications oracle now (a :: rest) k =
          (a :: (sendAllNotifications oracle now rest k).1,
            (sendAllNotifications oracle now rest k).2.1,
            (sendAllNotifications oracle now rest k).2.2) := by
        simp [sendAllNotifications, hn]
      obtain ⟨ihlen, ihcnt, ihidx⟩ := ih k
      refine ⟨by simp [hstep, ihlen], ?_, ?_⟩
      · rw [countUnnotified_cons_notified rest hn]
        simp [hstep, ihcnt]
      · intro i b hb
        cases i with
        | zero =>
          simp only [List.getElem?_cons_zero, Option.some.injEq] at hb
          subst hb
          exact ⟨fun _ => by simp [hstep], fun hfalse => absurd hn (by simp [hfalse])⟩
        | succ j =>
          simp only [List.getElem?_cons_succ] at hb
          obtain ⟨h1, h2⟩ := ihidx j b hb
          refine ⟨fun hb1 => ?_, fun hb0 => ?_⟩
          · simp only [hstep, List.getElem?_cons_succ]
            exact h1 hb1
          · have hcnt2 : k + countUnnotified (a :: rest.take j)
                = k + countUnnotified (rest.take j) := by
              rw [countUnnotified_cons_notified (rest.take j) hn]
            simp only [hstep, List.getElem?_cons_succ, List.take_succ_cons, hcnt2]
            exact h2 hb0
    · have hn' : a.notified = false := by simpa using hn
      by_cases ho : oracle k
      · have hstep : sendAllNotifications oracle now (a :: rest) k =
            (updateAssignmentNotified now a :: (sendAllNotifications oracle now rest (k + 1)).1,
              (sendAllNotifications oracle now rest (k + 1)).2.1 + 1,
              (sendAllNotifications oracle now rest (k + 1)).2.2) := by
          simp [sendAllNotifications, hn', ho]
        obtain ⟨ihlen, ihcnt, ihidx⟩ := ih (k + 1)
        refine ⟨by simp [hstep, ihlen], ?_, ?_⟩
        · rw [countUnnotified_cons_unnotified rest hn']
          simp only [hstep]
          omega
        · intro i b hb
          cases i with
          | zero =>
            simp only [List.getElem?_cons_zero, Option.some.injEq] at hb
            subst hb
            refine ⟨fun hb1 => absurd hb1 (by simp [hn']), fun _ => ?_⟩
            simp [hstep, countUnnotified, ho]
          | succ j =>
            simp only [List.getElem?_cons_succ] at hb
            obtain ⟨h1, h2⟩ := ihidx j b hb
            refine ⟨fun hb1 => ?_, fun hb0 => ?_⟩
            · simp only [hstep, List.getElem?_cons_succ]
              exact h1 hb1
            · have hcnt2 : k + countUnnotified (a :: rest.take j)
                  = k + 1 + countUnnotified (rest.take j) := by
                rw [countUnnotified_cons_unnotified (rest.take j) hn']
                omega
              simp only [hstep, List.getElem?_cons_succ, List.take_succ_cons, hcnt2]
              exact h2 hb0
      · have ho' : oracle k = false := by simpa using ho
        have hstep : sendAllNotifications oracle now (a :: rest) k =
            (a :: (sendAllNotifications oracle now rest (k + 1)).1,
              (sendAllNotifications oracle now rest (k + 1)).2.1,
              (sendAllNotifications oracle now rest (k + 1)).2.2 + 1) := by
          simp [sendAllNotifications, hn', ho']
        obtain ⟨ihlen, ihcnt, ihidx⟩ := ih (k + 1)
        refine ⟨by simp [hstep, ihlen], ?_, ?_⟩
        · rw [countUnnotified_cons_unnotified rest hn']
          simp only [hstep]
          omega
        · intro i b hb
          cases i with
          | zero =>
            simp only [List.getElem?_cons_zero, Option.some.injEq] at hb
            subst hb
            refine ⟨fun hb1 => absurd hb1 (by simp [hn']), fun _ => ?_⟩
            simp [hstep, countUnnotified, ho']
          | succ j =>
            simp only [List.getElem?_cons_succ] at hb
            obtain ⟨h1, h2⟩ := ihidx j b hb
            refine ⟨fun hb1 => ?_, fun hb0 => ?_⟩
            · simp only [hstep, List.getElem?_cons_succ]
              exact h1 hb1
            · have hcnt2 : k + countUnnotified (a :: rest.take j)
                  = k + 1 + countUnnotified (rest.take j) := by
                rw [countUnnotified_cons_unnotified (rest.take j) hn']
                omega
              simp only [hstep, List.getElem?_cons_succ, List.take_succ_cons, hcnt2]
              exact h2 hb0

/-- An already-notified row, for the C7 witness. -/
def rowNotified : Assignment :=
  ⟨1, true, some 0, false, none, none, none, false, some "U1", none, some "U2"⟩

/-- A not-yet-notified row, for the C7 witness. -/
def rowFresh : Assignment :=
  ⟨2, false, none, false, none, none, none, false, some "U3", none, some "U4"⟩

/-- Witness for C7: a two-row batch (one already notified, one fresh) with an
always-succeeding transport; the notified row is skipped, the fresh row is
marked notified, and sent + failed tallies the single attempt. -/
theorem sendAllNotifications_spec_witness :
    (sendAllNotifications (fun _ => true) 5 [rowNotified, rowFresh] 0).2.1
        + (sendAllNotifications (fun _ => true) 5 [rowNotified, rowFresh] 0).2.2
        = countUnnotified [rowNotified, rowFresh]
      ∧ (sendAllNotifications (fun _ => true) 5 [rowNotified, rowFresh] 0).1[0]?
          = some rowNotified
      ∧ (sendAllNotifications (fun _ => true) 5 [rowNotified, rowFresh] 0).1[1]?
          = some (if (fun _ => true : Nat → Bool)
                (0 + countUnnotified ([rowNotified, rowFresh].take 1))
              then updateAssignmentNotified 5 rowFresh else rowFresh) := by
  obtain ⟨hlen, hcnt, hidx⟩ := sendAllNotifications_spec (fun _ => true) 5 [rowNotified, rowFresh] 0
  exact ⟨hcnt, (hidx 0 rowNotified (by decide)).1 (by decide),
    (hidx 1 rowFresh (by decide)).2 (by decide)⟩

/-! ## Claims C3 and C4: the reminder scheduler -/

/-- Timezone database knowing only the default zone, at UTC offset 0. -/
def tzdbUTC : Tzdb := fun s => if s = "Europe/Riga" then some 0 else none

/-- Timezone database knowing only the default zone, at its real winter offset
of +2 hours. -/
def tzdbRiga : Tzdb := fun s => if s = "Europe/Riga" then some (2 * msPerHour) else none

/-- An assignment whose reminder is due exactly at local 10:00:00.000
(`nextReminderAt` = 10:00 UTC in a zero-offset zone). -/
def rowDueAtTen : Assignment :=
  ⟨3, true, some 0, false, none, some 0, some (10 * msPerHour), false, some "U1", none, some "U2"⟩

/-- C4 is violated by the code: when a sweep runs at exactly 10:00:00.000
local time, the successful send recomputes `nextReminderAt` via
`getNext10AMInTimezone`, whose `isBefore` check is strict, so the "next" slot
is `now` itself; an immediately following sweep at the same clock reading
finds `nextReminderAt ≤ now` again and sends a second reminder for the same
assignment.  Both sweeps report one sent message. -/
theorem reminder_double_send_bug :
    (sendGiftReminders tzdbUTC (some "tok") (10 * msPerHour) (fun _ => true)
        [rowDueAtTen]).2.sent = 1
      ∧ (sendGiftReminders tzdbUTC (some "tok") (10 * msPerHour) (fun _ => true)
          [rowDueAtTen]).1
        = [{ rowDueAtTen with
              lastReminderAt := some (10 * msPerHour)
              nextReminderAt := some (10 * msPerHour) }]
      ∧ (sendGiftReminders tzdbUTC (some "tok") (10 * msPerHour) (fun _ => true)
          (sendGiftReminders tzdbUTC (some "tok") (10 * msPerHour) (fun _ => true)
            [rowDueAtTen]).1).2.sent = 1 := by
  decide

/-- An assignment notified at 09:00 default-zone local time on day 0 whose
giver's recorded timezone is an unknown zone name, with no reminder scheduled
yet. -/
def rowBadZone : Assignment :=
  ⟨4, true, some (7 * msPerHour), false, none, none, none, false,
    some "U1", some "Mars/Olympus", some "U2"⟩

/-- Counterexample to C3 as stated: for a giver whose stored timezone is
present but invalid, the sweep does not fall back to the configured default
zone.  The claim predicts `nextReminderAt` = day 7 at 10:00 Riga time
(= 7 days + 8 hours UTC with the +2h offset); the code's catch block instead
persists `notifiedAt + 7 days` naive (= 7 days + 7 hours UTC here). -/
theorem getFirstReminderDate_invalid_zone_counterexample :
    (sendGiftReminders tzdbRiga (some "tok") 0 (fun _ => true) [rowBadZone]).1
        = [{ rowBadZone with nextReminderAt := some (7 * msPerDay + 7 * msPerHour) }]
      ∧ (7 * msPerDay + 7 * msPerHour : Int) ≠ 7 * msPerDay + 10 * msPerHour - 2 * msPerHour := by
  decide

/-- C3 (amended): for an assignment with no `nextReminderAt`, notified at day
`d` 09:00 local time in the giver's zone — the default zone being used when
the timezone is absent — and with the resolved zone known to the timezone
service, the sweep computes and persists `nextReminderAt` = day `d+7` at 10:00
local converted to UTC, or, when that instant is already in the past, the next
upcoming local-10:00 instant (an instant `v` with `now ≤ v < now + 1 day`
whose local wall clock reads 10:00); when the resolved zone is unknown the
code instead computes `notifiedAt + 7 days` (respectively `now + 1 day`)
without consulting the default zone. -/
theorem getFirstReminderDate_spec (db : Tzdb) (tz : Option String)
    (off d notifiedAt now : Int) (uid : String) (aid : Nat) (recv : Option String)
    (hvalid : db (orDefaultZone tz) = some off)
    (h9 : notifiedAt + off = d * msPerDay + 9 * msPerHour) :
    getFirstReminderDate db tz notifiedAt = (d + 7) * msPerDay + 10 * msPerHour - off
      ∧ (sendGiftReminders db (some "t") now (fun _ => true)
            [⟨aid, true, some notifiedAt, false, none, none, none, false, some uid, tz, recv⟩]).1
          = [⟨aid, true, some notifiedAt, false, none, none,
              some (if getFirstReminderDate db tz notifiedAt < now
                then getNext10AMInTimezone db tz now
                else getFirstReminderDate db tz notifiedAt),
              false, some uid, tz, recv⟩]
      ∧ (now ≤ getNext10AMInTimezone db tz now
          ∧ (getNext10AMInTimezone db tz now + off) % msPerDay = REMINDER_HOUR * msPerHour
          ∧ getNext10AMInTimezone db tz now < now + msPerDay)
      ∧ (∀ tz' t, db (orDefaultZone tz') = none →
          getFirstReminderDate db tz' t = t + 7 * msPerDay
            ∧ getNext10AMInTimezone db tz' t = t + msPerDay) := by
  refine ⟨?_, ?_, ?_, ?_⟩
  · simp only [getFirstReminderDate, hvalid]
    unfold msPerDay msPerHour REMINDER_HOUR at *
    omega
  · simp [sendGiftReminders, sweepGo, needsReminder, reminderStep, applyReminderOutcome,
      updateAssignmentNextReminder]
  · simp only [getNext10AMInTimezone, hvalid]
    unfold msPerDay msPerHour REMINDER_HOUR at *
    refine ⟨?_, ?_, ?_⟩ <;> (split <;> omega)
  · intro tz' t hnone
    constructor
    · simp only [getFirstReminderDate, hnone]
    · simp only [getNext10AMInTimezone, hnone]

/-- Witness for the amended C3: notified at 07:00 UTC = 09:00 Riga local on
day 0, timezone column absent (falls back to the default zone, offset +2h),
sweep running at `now = 0`. -/
theorem getFirstReminderDate_spec_witness :
    getFirstReminderDate tzdbRiga none (7 * msPerHour)
        = (0 + 7) * msPerDay + 10 * msPerHour - 2 * msPerHour
      ∧ (sendGiftReminders tzdbRiga (some "t") 0 (fun _ => true)
            [⟨5, true, some (7 * msPerHour), false, none, none, none, false,
              some "U1", none, some "U9"⟩]).1
          = [⟨5, true, some (7 * msPerHour), false, none, none,
              some (if getFirstReminderDate tzdbRiga none (7 * msPerHour) < 0
                then getNext10AMInTimezone tzdbRiga none 0
                else getFirstReminderDate tzdbRiga none (7 * msPerHour)),
              false, some "U1", none, some "U9"⟩] := by
  obtain ⟨h1, h2, h3, h4⟩ := getFirstReminderDate_spec tzdbRiga none (2 * msPerHour) 0
    (7 * msPerHour) 0 "U1" 5 (some "U9") (by decide) (by decide)
  exact ⟨h1, h2⟩

/-! ## Gift confirmation (`handleGiftConfirmation`, routes.ts lines 1439-1523) -/

/-- Whether `need` starts `hay` (character-wise). -/
def charsStartWith : List Char → List Char → Bool
  | _, [] => true
  | [], _ :: _ => false
  | a :: as, b :: bs => a == b && charsStartWith as bs

/-- Whether `need` occurs inside `hay`. -/
def charsContain (need : List Char) : List Char → Bool
  | [] => need.isEmpty
  | c :: rest => charsStartWith (c :: rest) need || charsContain need rest

/-- JS `String.prototype.includes`. -/
def containsSub (s sub : String) : Bool := charsContain sub.data s.data

/-- The affirmative classification of `handleGiftConfirmation`:
`lowerText === "yes" || lowerText === "y" || lowerText.includes("sent") ||
lowerText.includes("done")`. -/
def isYesReply (lowerText : String) : Bool :=
  lowerText == "yes" || lowerText == "y"
    || containsSub lowerText "sent" || containsSub lowerText "done"

/-- The negative classification: `lowerText === "no" || lowerText === "n" ||
lowerText.includes("not yet")`. -/
def isNoReply (lowerText : String) : Bool :=
  lowerText == "no" || lowerText == "n" || containsSub lowerText "not yet"

/-- The eligibility filter of `allAssignments.find(...)`: this giver's
assignment, notified, not gift-sent, with a reminder already sent. -/
def eligibleGift (slackUserId : String) (a : Assignment) : Bool :=
  a.giverSlackUserId == some slackUserId && a.notified && !a.giftSent
    && a.lastReminderAt.isSome

/-- Outbound messages of the gift-confirmation handler (texts elided; one
constructor per `chat.postMessage` site). -/
inductive GiftMsg
  | receiverHeadsUp
  | thankSender
  | encourage
deriving DecidableEq, Repr

/-- Result of `handleGiftConfirmation`: the `handled` flag, the assignment
table after the storage writes, and the outbound messages in send order. -/
structure GiftResult where
  handled : Bool
  assignments : List Assignment
  msgs : List GiftMsg
deriving DecidableEq, Repr

/-- `handleGiftConfirmation` from routes.ts: find the first eligible
assignment; classify the reply (affirmative checked first); on yes, mark the
gift sent, then — only when the receiver is reachable and not yet notified —
message the receiver and set the `receiverNotified` idempotency flag, then
thank the sender; on no, send only an encouragement and mutate nothing. -/
def handleGiftConfirmation (now : Int) (assignments : List Assignment)
    (slackUserId lowerText : String) : GiftResult :=
  match assignments.find? (eligibleGift slackUserId) with
  | none => ⟨false, assignments, []⟩
  | some ua =>
    if isYesReply lowerText then
      let marked := assignments.map fun b =>
        if b.id == ua.id then updateAssignmentGiftStatus now b else b
      if ua.receiverSlackUserId.isSome && !ua.receiverNotified then
        ⟨true,
          marked.map fun b =>
            if b.id == ua.id then updateAssignmentReceiverNotified b else b,
          [.receiverHeadsUp, .thankSender]⟩
      else
        ⟨true, marked, [.thankSender]⟩
    else if isNoReply lowerText then
      ⟨true, assignments, [.encourage]⟩
    else
      ⟨false, assignments, []⟩

/-- `find?` returns the unique element satisfying the predicate. -/
theorem find_eq_of_unique {p : Assignment → Bool} {l : List Assignment} {a : Assignment}
    (hmem : a ∈ l) (hpa : p a = true) (huniq : ∀ b ∈ l, p b = true → b = a) :
    l.find? p = some a := by
  induction l with
  | nil => simp at hmem
  | cons c rest ih =>
    by_cases hc : p c
    · have : c = a := huniq c (by simp) hc
      subst this
      simp [List.find?, hc]
    · rw [List.find?_cons_of_neg _ hc]
      rcases List.mem_cons.mp hmem with heq | hmem'
      · subst heq
        exact absurd hpa hc
      · exact ih hmem' (fun b hb hpb => huniq b (by simp [hb]) hpb)

/-- C6: for a giver with exactly one eligible assignment (notified, not
gift-sent, previously reminded), an affirmative reply marks that assignment
gift-sent and receiver-notified, emits exactly one receiver-side notification
(before the thank-you to the giver), and the handler is idempotent: invoking
it again on the updated table handles nothing, mutates nothing and emits no
message, because the marked assignment is no longer eligible (and the
`receiverNotified` flag additionally guards the receiver send); a negative
reply produces only the encouragement message and leaves the table
unchanged. -/
theorem handleGiftConfirmation_spec (now now' : Int) (assignments : List Assignment)
    (uid lowerText lowerText' negText : String) (a : Assignment)
    (hmem : a ∈ assignments) (helig : eligibleGift uid a = true)
    (huniq : ∀ b ∈ assignments, eligibleGift uid b = true → b = a)
    (hrecv : a.receiverSlackUserId.isSome = true)
    (hrn : a.receiverNotified = false)
    (hyes : isYesReply lowerText = true) :
    (handleGiftConfirmation now assignments uid lowerText).handled = true
      ∧ (handleGiftConfirmation now assignments uid lowerText).msgs
          = [.receiverHeadsUp, .thankSender]
      ∧ (∀ b ∈ (handleGiftConfirmation now assignments uid lowerText).assignments,
          b.id = a.id → b.giftSent = true ∧ b.receiverNotified = true)
      ∧ (∀ b ∈ (handleGiftConfirmation now assignments uid lowerText).assignments,
          b.id ≠ a.id → b ∈ assignments)
      ∧ handleGiftConfirmation now' (handleGiftConfirmation now assignments uid lowerText).assignments
          uid lowerText'
        = ⟨false, (handleGiftConfirmation now assignments uid lowerText).assignments, []⟩
      ∧ (isYesReply negText = false → isNoReply negText = true →
          handleGiftConfirmation now assignments uid negText
            = ⟨true, assignments, [.encourage]⟩) := by
  have hfind : assignments.find? (eligibleGift uid) = some a :=
    find_eq_of_unique hmem helig huniq
  have hguard : (a.receiverSlackUserId.isSome && !a.receiverNotified) = true := by
    simp [hrecv, hrn]
  have hres : handleGiftConfirmation now assignments uid lowerText
      = ⟨true,
          (assignments.map fun b =>
              if b.id == a.id then updateAssignmentGiftStatus now b else b).map
            fun b => if b.id == a.id then updateAssignmentReceiverNotified b else b,
          [.receiverHeadsUp, .thankSender]⟩ := by
    unfold handleGiftConfirmation
    rw [hfind]
    simp only [hyes, if_true, hguard]
  have hshape : ∀ b ∈ (handleGiftConfirmation now assignments uid lowerText).assignments,
      ∃ c ∈ assignments,
        b = if c.id == a.id
          then updateAssignmentReceiverNotified (updateAssignmentGiftStatus now c)
          else c := by
    rw [hres]
    intro b hb
    obtain ⟨b1, hb1, hb1eq⟩ := List.mem_map.mp hb
    obtain ⟨c, hc, hceq⟩ := List.mem_map.mp hb1
    refine ⟨c, hc, ?_⟩
    by_cases hcid : c.id == a.id
    · subst hceq
      subst hb1eq
      simp only [hcid, if_true]
      have : (updateAssignmentGiftStatus now c).id = c.id := rfl
      rw [show ((updateAssignmentGiftStatus now c).id == a.id) = true from by
        rw [this]; exact hcid]
      simp
    · have hcid' : (c.id == a.id) = false := by simpa using hcid
      subst hceq
      subst hb1eq
      simp [hcid']
  refine ⟨by rw [hres], by rw [hres], ?_, ?_, ?_, ?_⟩
  · intro b hb hbid
    obtain ⟨c, hc, hceq⟩ := hshape b hb
    by_cases hcid : c.id == a.id
    · rw [hcid] at hceq
      simp only [if_true] at hceq
      subst hceq
      exact ⟨rfl, rfl⟩
    · have hcid' : (c.id == a.id) = false := by simpa using hcid
      rw [hcid'] at hceq
      simp only [Bool.false_eq_true, if_false] at hceq
      subst hceq
      exact absurd hbid (by simpa using hcid')
  · intro b hb hbid
    obtain ⟨c, hc, hceq⟩ := hshape b hb
    by_cases hcid : c.id == a.id
    · rw [hcid] at hceq
      simp only [if_true] at hceq
      subst hceq
      have hid : c.id = a.id := by simpa using hcid
      exact absurd hid hbid
    · have hcid' : (c.id == a.id) = false := by simpa using hcid
      rw [hcid'] at hceq
      simp only [Bool.false_eq_true, if_false] at hceq
      subst hceq
      exact hc
  · have hnone : (handleGiftConfirmation now assignments uid lowerText).assignments.find?
        (eligibleGift uid) = none := by
      rw [List.find?_eq_none]
      intro b hb
      obtain ⟨c, hc, hceq⟩ := hshape b hb
      by_cases hcid : c.id == a.id
      · rw [hcid] at hceq
        simp only [if_true] at hceq
        subst hceq
        intro helig'
        unfold eligibleGift at helig'
        simp [updateAssignmentReceiverNotified, updateAssignmentGiftStatus] at helig'
      · have hcid' : (c.id == a.id) = false := by simpa using hcid
        rw [hcid'] at hceq
        simp only [Bool.false_eq_true, if_false] at hceq
        subst hceq
        intro helig'
        have := huniq b hc helig'
        subst this
        simp at hcid'
    have hgen : ∀ (n : Int) (l : List Assignment) (t : String),
        l.find? (eligibleGift uid) = none → handleGiftConfirmation n l uid t = ⟨false, l, []⟩ := by
      intro n l t h
      unfold handleGiftConfirmation
      rw [h]
    exact hgen now' _ lowerText' hnone
  · intro hnoyes hno
    unfold handleGiftConfirmation
    rw [hfind]
    simp only [hnoyes, Bool.false_eq_true, if_false, hno, if_true]

/-- A fully eligible assignment row (notified, not gift-sent, reminded,
receiver reachable) for the C6 and C10 witnesses. -/
def rowEligible : Assignment :=
  ⟨6, true, some 0, false, none, some 0, none, false, some "U1", none, some "U2"⟩

/-- Witness for C6 on a one-row table: "yes" marks and notifies once, a second
"yes" is a no-op, "no" only encourages. -/
theorem handleGiftConfirmation_spec_witness :
    (handleGiftConfirmation 0 [rowEligible] "U1" "yes").handled = true
      ∧ (handleGiftConfirmation 0 [rowEligible] "U1" "yes").msgs
          = [.receiverHeadsUp, .thankSender]
      ∧ handleGiftConfirmation 1 (handleGiftConfirmation 0 [rowEligible] "U1" "yes").assignments
          "U1" "yes"
        = ⟨false, (handleGiftConfirmation 0 [rowEligible] "U1" "yes").assignments, []⟩
      ∧ handleGiftConfirmation 0 [rowEligible] "U1" "no"
          = ⟨true, [rowEligible], [.encourage]⟩ := by
  obtain ⟨h1, h2, h3, h4, h5, h6⟩ := handleGiftConfirmation_spec 0 1 [rowEligible]
    "U1" "yes" "yes" "no" rowEligible (by decide) (by decide)
    (by decide) (by decide) (by decide) (by decide)
  exact ⟨h1, h2, h5, h6 (by decide) (by decide)⟩

/-- C10: the affirmative classification wins over the negative one — for a
giver with an eligible assignment, any message whose lowercased text contains
"sent" or "done" (or equals "yes"/"y") is handled as an affirmative
confirmation and marks the gift sent, even when the same text also matches the
negative vocabulary. -/
theorem handleGiftConfirmation_yes_priority (now : Int) (assignments : List Assignment)
    (uid lowerText : String) (a : Assignment)
    (hmem : a ∈ assignments) (helig : eligibleGift uid a = true)
    (huniq : ∀ b ∈ assignments, eligibleGift uid b = true → b = a)
    (hcond : containsSub lowerText "sent" = true ∨ containsSub lowerText "done" = true
      ∨ lowerText = "yes" ∨ lowerText = "y") :
    (handleGiftConfirmation now assignments uid lowerText).handled = true
      ∧ ∀ b ∈ (handleGiftConfirmation now assignments uid lowerText).assignments,
          b.id = a.id → b.giftSent = true := by
  have hyes : isYesReply lowerText = true := by
    unfold isYesReply
    rcases hcond with h | h | h | h
    · simp [h]
    · simp [h]
    · subst h; simp
    · subst h; simp
  have hfind : assignments.find? (eligibleGift uid) = some a :=
    find_eq_of_unique hmem helig huniq
  have hmark : ∀ b ∈ assignments.map fun b =>
      if b.id == a.id then updateAssignmentGiftStatus now b else b,
      b.id = a.id → b.giftSent = true := by
    intro b hb hbid
    obtain ⟨c, hc, hceq⟩ := List.mem_map.mp hb
    by_cases hcid : c.id == a.id
    · rw [hcid] at hceq
      simp only [if_true] at hceq
      subst hceq
      rfl
    · have hcid' : (c.id == a.id) = false := by simpa using hcid
      rw [hcid'] at hceq
      simp only [Bool.false_eq_true, if_false] at hceq
      subst hceq
      exact absurd hbid (by simpa using hcid')
  unfold handleGiftConfirmation
  rw [hfind]
  simp only [hyes, if_true]
  by_cases hguard : (a.receiverSlackUserId.isSome && !a.receiverNotified) = true
  · simp only [hguard, if_true]
    refine ⟨by trivial, ?_⟩
    intro b hb hbid
    obtain ⟨b1, hb1, hb1eq⟩ := List.mem_map.mp hb
    by_cases hb1id : b1.id == a.id
    · rw [hb1id] at hb1eq
      simp only [if_true] at hb1eq
      subst hb1eq
      exact hmark b1 hb1 (by simpa using hb1id)
    · have hb1id' : (b1.id == a.id) = false := by simpa using hb1id
      rw [hb1id'] at hb1eq
      simp only [Bool.false_eq_true, if_false] at hb1eq
      subst hb1eq
      exact hmark b1 hb1 hbid
  · have hguard' : (a.receiverSlackUserId.isSome && !a.receiverNotified) = false := by
      simpa using hguard
    simp only [hguard', Bool.false_eq_true, if_false]
    exact ⟨by trivial, hmark⟩

/-- Counterexample to C10's illustration: "not sent yet" does not match the
negative vocabulary — `"not yet"` is not a contiguous substring of
`"not sent yet"`, and the text equals neither "no" nor "n" — although it is
still classified affirmative (it contains "sent"). -/
theorem notSentYet_not_negative_counterexample :
    isNoReply "not sent yet" = false ∧ isYesReply "not sent yet" = true := by
  decide

/-- Witness for the amended C10: "not yet sent" matches both vocabularies
(`includes("sent")` and `includes("not yet")`) and is classified affirmative,
marking the gift sent; "not sent yet" is likewise affirmative via "sent". -/
theorem handleGiftConfirmation_yes_priority_witness :
    isNoReply "not yet sent" = true
      ∧ (handleGiftConfirmation 0 [rowEligible] "U1" "not yet sent").handled = true
      ∧ (∀ b ∈ (handleGiftConfirmation 0 [rowEligible] "U1" "not yet sent").assignments,
          b.id = rowEligible.id → b.giftSent = true)
      ∧ (handleGiftConfirmation 0 [rowEligible] "U1" "not sent yet").handled = true := by
  obtain ⟨h1, h2⟩ := handleGiftConfirmation_yes_priority 0 [rowEligible] "U1" "not yet sent"
    rowEligible (by decide) (by decide) (by decide) (Or.inl (by decide))
  obtain ⟨h3, _⟩ := handleGiftConfirmation_yes_priority 0 [rowEligible] "U1" "not sent yet"
    rowEligible (by decide) (by decide) (by decide) (Or.inl (by decide))
  exact ⟨by decide, h1, h2, h3⟩

/-! ## Onboarding state machine (`processSlackMessage`, routes.ts 1525-1717) -/

/-- `ONBOARDING_STATES` from schema.ts as a closed enumeration. -/
inductive ConvState
  | invited
  | awaitingConsent
  | collectingName
  | collectingCountry
  | collectingCity
  | collectingZip
  | collectingStreet
  | collectingPhone
  | collectingNotes
  | completed
  | declined
deriving DecidableEq, Repr

/-- The nullable collected-field columns of `slack_onboarding_sessions`. -/
structure SessionFields where
  collectedName : Option String
  collectedCountry : Option String
  collectedCity : Option String
  collectedZip : Option String
  collectedStreet : Option String
  collectedPhone : Option String
  collectedNotes : Option String
deriving DecidableEq, Repr

/-- Names of the seven collected-field columns. -/
inductive FieldTag
  | name | country | city | zip | street | phone | notes
deriving DecidableEq, Repr

/-- Column lookup by tag. -/
def getField (f : SessionFields) : FieldTag → Option String
  | .name => f.collectedName
  | .country => f.collectedCountry
  | .city => f.collectedCity
  | .zip => f.collectedZip
  | .street => f.collectedStreet
  | .phone => f.collectedPhone
  | .notes => f.collectedNotes

/-- JS `toLowerCase` (character-wise). -/
def lowerStr (s : String) : String := String.mk (s.data.map Char.toLower)

/-- JS `toUpperCase` (character-wise). -/
def upperStr (s : String) : String := String.mk (s.data.map Char.toUpper)

/-- JS `trim`. -/
def trimStr (s : String) : String :=
  String.mk (((s.data.dropWhile Char.isWhitespace).reverse.dropWhile Char.isWhitespace).reverse)

/-- `messageText.toLowerCase().trim()` as computed at the top of
`processSlackMessage`. -/
def lowerTrim (s : String) : String := trimStr (lowerStr s)

/-- JS `s.split(" ")` (single-space separator, adjacent separators produce
empty words). -/
def splitOnSpace (cs : List Char) : List (List Char) :=
  cs.foldr
    (fun c acc =>
      match acc with
      | w :: ws => if c == ' ' then [] :: w :: ws else (c :: w) :: ws
      | [] => [[c]])
    [[]]

/-- `w.charAt(0).toUpperCase() + w.slice(1)` (identity on the empty word). -/
def titleWord : List Char → List Char
  | [] => []
  | c :: rest => c.toUpper :: rest

/-- The title-casing applied to collected names, countries and cities:
`split(" ").map(w => w.charAt(0).toUpperCase() + w.slice(1)).join(" ")`. -/
def titleCaseJS (s : String) : String :=
  String.mk (List.intercalate [' '] ((splitOnSpace s.data).map titleWord))

/-- JS `string.length` (the model treats one `Char` per UTF-16 unit). -/
def strLen (s : String) : Nat := s.data.length

/-- Number of digit characters, as in `messageText.replace(/\D/g, "").length`. -/
def countDigits (s : String) : Nat := (s.data.filter Char.isDigit).length

/-- Outbound onboarding prompts (texts elided; one constructor per
`responseMessage` assignment site in the switch). -/
inductive Prompt
  | consentReprompt
  | askName
  | reAskName
  | askCountry
  | reAskCountry
  | askCity
  | reAskCity
  | askZip
  | reAskZip
  | askStreet
  | reAskStreet
  | askPhone
  | reAskPhone
  | askNotes
  | completedMsg
  | declinedMsg
deriving DecidableEq, Repr

/-- Side effects on the contact / participant tables performed by a step. -/
inductive SessionEffect
  | markInProgress
  | markDeclined
  | completeOnboarding
deriving DecidableEq, Repr

/-- Result of one accepted inbound message: the next state, the updated
columns, the single outbound prompt, and the optional side effect. -/
structure StepRes where
  state : ConvState
  fields : SessionFields
  prompt : Prompt
  effect : Option SessionEffect
deriving DecidableEq, Repr

/-- The `switch (session.conversationState)` of `processSlackMessage`.
`none` models the early `return` arms (`completed`, `declined`, and the
`default` arm covering `invited`): no session update, no outbound message. -/
def advanceSession (s : ConvState) (f : SessionFields) (messageText : String) : Option StepRes :=
  let lowerText := lowerTrim messageText
  match s with
  | .awaitingConsent =>
    if containsSub lowerText "yes" || containsSub lowerText "yeah"
        || containsSub lowerText "sure" || containsSub lowerText "ok" then
      some ⟨.collectingName, f, .askName, some .markInProgress⟩
    else if containsSub lowerText "no" || containsSub lowerText "nope"
        || containsSub lowerText "decline" then
      some ⟨.declined, f, .declinedMsg, some .markDeclined⟩
    else
      some ⟨.awaitingConsent, f, .consentReprompt, none⟩
  | .collectingName =>
    if 2 ≤ strLen messageText ∧ strLen messageText ≤ 100 then
      some ⟨.collectingCountry, { f with collectedName := some (titleCaseJS messageText) },
        .askCountry, none⟩
    else
      some ⟨.collectingName, f, .reAskName, none⟩
  | .collectingCountry =>
    if 2 ≤ strLen messageText then
      some ⟨.collectingCity, { f with collectedCountry := some (titleCaseJS messageText) },
        .askCity, none⟩
    else
      some ⟨.collectingCountry, f, .reAskCountry, none⟩
  | .collectingCity =>
    if 2 ≤ strLen messageText then
      some ⟨.collectingZip, { f with collectedCity := some (titleCaseJS messageText) },
        .askZip, none⟩
    else
      some ⟨.collectingCity, f, .reAskCity, none⟩
  | .collectingZip =>
    if 3 ≤ strLen messageText then
      some ⟨.collectingStreet, { f with collectedZip := some (upperStr messageText) },
        .askStreet, none⟩
    else
      some ⟨.collectingZip, f, .reAskZip, none⟩
  | .collectingStreet =>
    if 5 ≤ strLen messageText then
      some ⟨.collectingPhone, { f with collectedStreet := some messageText }, .askPhone, none⟩
    else
      some ⟨.collectingStreet, f, .reAskStreet, none⟩
  | .collectingPhone =>
    if 7 ≤ countDigits messageText then
      some ⟨.collectingNotes, { f with collectedPhone := some messageText }, .askNotes, none⟩
    else
      some ⟨.collectingPhone, f, .reAskPhone, none⟩
  | .collectingNotes =>
    let isSkip := lowerText == "skip" || lowerText == "none" || lowerText == "n/a"
    let f' := if isSkip = false ∧ 0 < strLen messageText
      then { f with collectedNotes := some messageText } else f
    some ⟨.completed, f', .completedMsg, some .completeOnboarding⟩
  | .completed => none
  | .declined => none
  | .invited => none

/-- The session's (state, fields) after one inbound message. -/
def stepSession (s : ConvState) (f : SessionFields) (m : String) : ConvState × SessionFields :=
  match advanceSession s f m with
  | none => (s, f)
  | some r => (r.state, r.fields)

/-- The session after a sequence of inbound messages. -/
def runSession (s : ConvState) (f : SessionFields) : List String → ConvState × SessionFields
  | [] => (s, f)
  | m :: ms => runSession (stepSession s f m).1 (stepSession s f m).2 ms

/-- Position of a state along the conversation's forward order. -/
def stateRank : ConvState → Nat
  | .invited => 0
  | .awaitingConsent => 1
  | .collectingName => 2
  | .collectingCountry => 3
  | .collectingCity => 4
  | .collectingZip => 5
  | .collectingStreet => 6
  | .collectingPhone => 7
  | .collectingNotes => 8
  | .completed => 9
  | .declined => 10

/-- The two terminal states. -/
def isTerminal (s : ConvState) : Bool := s == .completed || s == .declined

/-- Result of `processSlackMessage`: the assignment table, the
gift-confirmation messages, the (possibly updated) session, the onboarding
prompt and the side effect. -/
structure ProcResult where
  assignments : List Assignment
  giftMsgs : List GiftMsg
  session : Option (ConvState × SessionFields)
  prompt : Option Prompt
  effect : Option SessionEffect
deriving DecidableEq, Repr

/-- `processSlackMessage` from routes.ts: bail out without a token; run the
gift-confirmation handler first and stop if it handled the message; otherwise
run the onboarding switch when an active session and its contact exist. -/
def processSlackMessage (token : Option String) (now : Int) (assignments : List Assignment)
    (uid : String) (session : Option (ConvState × SessionFields)) (hasContact : Bool)
    (messageText : String) : ProcResult :=
  match token with
  | none => ⟨assignments, [], session, none, none⟩
  | some _ =>
    let g := handleGiftConfirmation now assignments uid (lowerTrim messageText)
    if g.handled then ⟨g.assignments, g.msgs, session, none, none⟩
    else
      match session with
      | none => ⟨assignments, [], none, none, none⟩
      | some (s, f) =>
        if hasContact then
          match advanceSession s f messageText with
          | none => ⟨assignments, [], some (s, f), none, none⟩
          | some r => ⟨assignments, [], some (r.state, r.fields), some r.prompt, r.effect⟩
        else ⟨assignments, [], some (s, f), none, none⟩

theorem stepSession_fields_mono (s : ConvState) (f : SessionFields) (m : String) (t : FieldTag)
    (ht : (getField f t).isSome = true) : (getField (stepSession s f m).2 t).isSome = true := by
  have hnone : ∀ s', advanceSession s' f m = none →
      (getField (stepSession s' f m).2 t).isSome = true := by
    intro s' h
    unfold stepSession
    rw [h]
    exact ht
  cases s
  case invited => exact hnone _ rfl
  case completed => exact hnone _ rfl
  case declined => exact hnone _ rfl
  all_goals (
    unfold stepSession
    simp only [advanceSession]
    split_ifs <;> (cases t <;> simp only [getField] at ht ⊢ <;> simp [getField, ht]))

theorem stepSession_rank_mono (s : ConvState) (f : SessionFields) (m : String) :
    stateRank s ≤ stateRank (stepSession s f m).1 := by
  have hnone : ∀ s', advanceSession s' f m = none →
      stateRank s' ≤ stateRank (stepSession s' f m).1 := by
    intro s' h
    unfold stepSession
    rw [h]
  cases s
  case invited => exact hnone _ rfl
  case completed => exact hnone _ rfl
  case declined => exact hnone _ rfl
  all_goals (
    unfold stepSession
    simp only [advanceSession]
    (try split_ifs) <;> simp [stateRank])

theorem runSession_fields_mono (msgs : List String) :
    ∀ (s : ConvState) (f : SessionFields) (t : FieldTag),
      (getField f t).isSome = true → (getField (runSession s f msgs).2 t).isSome = true := by
  induction msgs with
  | nil => intro s f t ht; exact ht
  | cons m ms ih =>
    intro s f t ht
    exact ih _ _ t (stepSession_fields_mono s f m t ht)

theorem runSession_rank_mono (msgs : List String) :
    ∀ (s : ConvState) (f : SessionFields), stateRank s ≤ stateRank (runSession s f msgs).1 := by
  induction msgs with
  | nil => intro s f; exact Nat.le_refl _
  | cons m ms ih =>
    intro s f
    exact Nat.le_trans (stepSession_rank_mono s f m) (ih _ _)

theorem advanceSession_stay_fields (s : ConvState) (f : SessionFields) (m : String)
    (r : StepRes) (h : advanceSession s f m = some r) (hs : r.state = s) : r.fields = f := by
  cases s
  case invited => exact absurd h (by simp [advanceSession])
  case completed => exact absurd h (by simp [advanceSession])
  case declined => exact absurd h (by simp [advanceSession])
  all_goals (
    simp only [advanceSession] at h
    split_ifs at h <;> (injection h with h2) <;> subst h2 <;> (first | rfl | simp at hs))

theorem advanceSession_terminal (s : ConvState) (f : SessionFields) (m : String)
    (h : isTerminal s = true) : advanceSession s f m = none := by
  cases s <;> simp [isTerminal] at h <;> rfl

/-- C5: over any sequence of inbound messages the set of collected session
fields never shrinks and the conversation state's rank never decreases; a step
that leaves the state in place (a failed validation or an unclassifiable
consent reply) leaves the collected fields untouched and only re-prompts; the
terminal states accept no transition at all (the switch returns with no
session write and no prompt), and an inbound message to a terminal session
leaves the stored session unchanged and produces no onboarding prompt. -/
theorem onboarding_invariants :
    (∀ s f m t, (getField f t).isSome = true →
        (getField (stepSession s f m).2 t).isSome = true)
      ∧ (∀ s f m, stateRank s ≤ stateRank (stepSession s f m).1)
      ∧ (∀ s f msgs t, (getField f t).isSome = true →
          (getField (runSession s f msgs).2 t).isSome = true)
      ∧ (∀ s f msgs, stateRank s ≤ stateRank (runSession s f msgs).1)
      ∧ (∀ s f m r, advanceSession s f m = some r → r.state = s → r.fields = f)
      ∧ (∀ s f m, isTerminal s = true → advanceSession s f m = none)
      ∧ (∀ token now asgs uid s f hc m, isTerminal s = true →
          (processSlackMessage token now asgs uid (some (s, f)) hc m).session = some (s, f)
            ∧ (processSlackMessage token now asgs uid (some (s, f)) hc m).prompt = none) := by
  refine ⟨stepSession_fields_mono, stepSession_rank_mono,
    fun s f msgs t ht => runSession_fields_mono msgs s f t ht,
    fun s f msgs => runSession_rank_mono msgs s f,
    advanceSession_stay_fields, advanceSession_terminal, ?_⟩
  intro token now asgs uid s f hc m hterm
  cases token with
  | none => exact ⟨rfl, rfl⟩
  | some tok =>
    unfold processSlackMessage
    by_cases hg : (handleGiftConfirmation now asgs uid (lowerTrim m)).handled = true
    · simp only [hg, if_true]
      constructor <;> trivial
    · have hg' : (handleGiftConfirmation now asgs uid (lowerTrim m)).handled = false := by
        simpa using hg
      simp only [hg', Bool.false_eq_true, if_false]
      by_cases hhc : hc
      · simp only [hhc, if_true, advanceSession_terminal s f m hterm]
        constructor <;> trivial
      · have hhc' : hc = false := by simpa using hhc
        simp only [hhc', Bool.false_eq_true, if_false]
        constructor <;> trivial

/-- Witness for C5: a 1-character country reply in `CollectingCountry` keeps
the already-collected name; a terminal session ignores input end to end. -/
theorem onboarding_invariants_witness :
    (getField (stepSession .collectingCountry
        ⟨some "Jo", none, none, none, none, none, none⟩ "x").2 .name).isSome = true
      ∧ advanceSession .completed ⟨none, none, none, none, none, none, none⟩ "yes" = none
      ∧ (processSlackMessage (some "tok") 0 [] "U1"
          (some (.declined, ⟨none, none, none, none, none, none, none⟩)) true "hello").prompt
        = none := by
  obtain ⟨h1, h2, h3, h4, h5, h6, h7⟩ := onboarding_invariants
  exact ⟨h1 _ _ _ .name (by decide), h6 _ _ _ (by decide),
    (h7 (some "tok") 0 [] "U1" _ _ true "hello" (by decide)).2⟩

/-! ## Exclusion creation (`POST /api/exclusions`, routes.ts 798-811;
`insertExclusionSchema`, schema.ts line 130) -/

/-- The request body of `POST /api/exclusions` as far as the schema inspects
it: the two id fields, each possibly missing. -/
structure ExclusionBody where
  participantId : Option String
  excludedParticipantId : Option String
deriving DecidableEq, Repr

/-- `insertExclusionSchema.parse`: `createInsertSchema(exclusions).omit({ id })`
requires both `participantId` and `excludedParticipantId` to be present
strings and applies no further refinement — in particular no check that the
two ids differ. -/
def insertExclusionSchemaParse (b : ExclusionBody) : Option ExclusionPair :=
  match b.participantId, b.excludedParticipantId with
  | some p, some e => some ⟨p, e⟩
  | _, _ => none

/-- Outcome of `POST /api/exclusions`: the stored table after
`storage.createExclusion`, or the Zod 400. -/
inductive ExclusionCreateResult
  | created (stored : List ExclusionPair)
  | validationError
deriving DecidableEq, Repr

/-- The `POST /api/exclusions` handler: parse the body, then
`storage.createExclusion` inserts the row unconditionally. -/
def postExclusions (stored : List ExclusionPair) (b : ExclusionBody) : ExclusionCreateResult :=
  match insertExclusionSchemaParse b with
  | some exclusion => .created (stored ++ [exclusion])
  | none => .validationError

/-- Counterexample to C9: a body with `participantId` equal to
`excludedParticipantId` passes `insertExclusionSchema` and is stored, so the
operation does mutate stored state with an A = B pair. -/
theorem selfExclusion_accepted_counterexample :
    postExclusions [] ⟨some "A", some "A"⟩ = .created [⟨"A", "A"⟩]
      ∧ ∃ e ∈ [(⟨"A", "A"⟩ : ExclusionPair)],
          e.participantId = e.excludedParticipantId := by
  decide

/-- C9 (amended): the exclusion-creation operation checks only that both id
fields are present; a self-exclusion is accepted and appended to the stored
exclusions, so the no-A=B invariant is not enforced at creation.  A stored
self-pair can never appear in a matching, because `isValidAssignment` already
rejects every giver = receiver pair. -/
theorem postExclusions_self_accepted (stored : List ExclusionPair) (v : String)
    (exclusionSet : List String) :
    postExclusions stored ⟨some v, some v⟩ = .created (stored ++ [⟨v, v⟩])
      ∧ isValidAssignment exclusionSet v v = false := by
  constructor
  · rfl
  · unfold isValidAssignment
    simp

end SecretSanta
